import Mathlib

/-!
Verification of the flexibility-valuation analytics of the
europe-electricity-dashboard repository.

The embedded code comes from two places that duplicate the same algorithm:
the offline batch script (process-data.js: processData,
calculateFlexibilityMetrics) and the interactive component
(FlexibilityCalculator.tsx: calculatePriceFlexibility,
dateRangePriceMetrics).  Numbers are modelled as rationals, JavaScript
Math.round as floor (q + 1/2) (round half toward positive infinity),
Array.prototype.sort with a comparator as a stable sort (insertion sort),
and ISO timestamps abstractly as naturals ordered like the timestamp
strings they stand for.
-/

/-- JavaScript Math.round: rounds half toward positive infinity. -/
def jsRound (q : ℚ) : ℤ := ⌊q + 1/2⌋

/-- Math.round(x * 100) / 100 : rounding to two decimal places. -/
def round2 (q : ℚ) : ℚ := (jsRound (q * 100) : ℚ) / 100

/-- One observation of the hourly price series: { datetime, price }. -/
structure HourlyPrice where
  datetime : ℕ
  price : ℚ
  deriving DecidableEq

/-- One record of the daily aggregate series: { date, avgPrice, minPrice, maxPrice }. -/
structure DailyPrice where
  date : ℕ
  avgPrice : ℚ
  minPrice : ℚ
  maxPrice : ℚ
  deriving DecidableEq

/-- One flexibility metric, as produced for each window label. -/
structure FlexibilityMetric where
  avgSavingsPerMWh : ℚ
  savingsPerGWh : ℚ
  percentageOfAvgPrice : ℚ
  deriving DecidableEq

/-- The metric map keyed by the four window labels 1h, 2h, 4h, 8h. -/
structure FlexMetrics where
  h1 : FlexibilityMetric
  h2 : FlexibilityMetric
  h4 : FlexibilityMetric
  h8 : FlexibilityMetric
  deriving DecidableEq

/-- Result of dateRangePriceMetrics: the four metrics plus provenance. -/
structure RangeMetrics where
  h1 : FlexibilityMetric
  h2 : FlexibilityMetric
  h4 : FlexibilityMetric
  h8 : FlexibilityMetric
  isEstimated : Bool
  dataPoints : ℕ
  avgPrice : ℚ
  deriving DecidableEq

/-- The local minimum search of calculateFlexibilityMetrics /
calculatePriceFlexibility at index i: start from the current value, scan
forward j = 1..w guarded by i + j < length, then backward j = 1..w guarded
by i - j >= 0. -/
def localMinAt (prices : List ℚ) (w i : ℕ) : ℚ :=
  let n := prices.length
  let current := prices.getD i 0
  let fwd := (List.range w).foldl
    (fun m j => if i + j + 1 < n then min m (prices.getD (i + j + 1) 0) else m) current
  (List.range w).foldl
    (fun m j => if j + 1 ≤ i then min m (prices.getD (i - (j + 1)) 0) else m) fwd

/-- savings = currentPrice - minPrice at index i for window w. -/
def savingsAt (prices : List ℚ) (w i : ℕ) : ℚ :=
  prices.getD i 0 - localMinAt prices w i

/-- The accumulation loop of the calculator: iterates i over
0 <= i < length - w (the JavaScript loop bound), accumulating
(totalSavings, possibleShifts) over positions with positive savings. -/
def windowTotals (prices : List ℚ) (w : ℕ) : ℚ × ℕ :=
  (List.range (prices.length - w)).foldl
    (fun acc i =>
      if 0 < savingsAt prices w i then (acc.1 + savingsAt prices w i, acc.2 + 1) else acc)
    (0, 0)

/-- The reported metric for one window size, as built in the source:
avgSavings = possibleShifts > 0 ? totalSavings / length : 0, then the three
rounded fields. -/
def metricFor (prices : List ℚ) (w : ℕ) : FlexibilityMetric :=
  let t := windowTotals prices w
  let avgSavings := if 0 < t.2 then t.1 / (prices.length : ℚ) else 0
  let avgPrice := prices.sum / (prices.length : ℚ)
  { avgSavingsPerMWh := round2 avgSavings
    savingsPerGWh := (jsRound (avgSavings * 1000) : ℚ)
    percentageOfAvgPrice := (jsRound (avgSavings / avgPrice * 10000) : ℚ) / 100 }

/-- Shared body of the two duplicated calculator functions: the length
guard followed by one metric per window size in {1, 2, 4, 8}. -/
def flexCore (prices : List ℚ) : Option FlexMetrics :=
  if prices.length < 24 then none
  else some ⟨metricFor prices 1, metricFor prices 2, metricFor prices 4, metricFor prices 8⟩

/-- calculateFlexibilityMetrics from process-data.js. -/
def calculateFlexibilityMetrics (hourlyData : List HourlyPrice) : Option FlexMetrics :=
  flexCore (hourlyData.map (fun p => p.price))

/-- calculatePriceFlexibility from FlexibilityCalculator.tsx (same
algorithm, independently written). -/
def calculatePriceFlexibility (hourlyData : List HourlyPrice) : Option FlexMetrics :=
  flexCore (hourlyData.map (fun p => p.price))

/-- Builds an hourly series with consecutive timestamps from a price list. -/
def mkSeriesFrom (t : ℕ) : List ℚ → List HourlyPrice
  | [] => []
  | q :: qs => ⟨t, q⟩ :: mkSeriesFrom (t + 1) qs

/-- An hourly series with timestamps 0, 1, 2, ... over the given prices. -/
def mkSeries (qs : List ℚ) : List HourlyPrice := mkSeriesFrom 0 qs

/-- The aggregate the code actually computes for one window: positive
savings summed over the loop range 0 <= i < length - w, divided by the
full series length. -/
def codeAvgSavings (prices : List ℚ) (w : ℕ) : ℚ :=
  (((List.range (prices.length - w)).filter
      (fun i => decide (0 < savingsAt prices w i))).map
    (fun i => savingsAt prices w i)).sum / (prices.length : ℚ)

/-- Modelled from the spec wording of the aggregation (claim C1): the sum
runs over every index of the series, the last w indices included with a
window merely clipped at the series end. -/
def claimAvgSavings (prices : List ℚ) (w : ℕ) : ℚ :=
  (((List.range prices.length).filter
      (fun i => decide (0 < savingsAt prices w i))).map
    (fun i => savingsAt prices w i)).sum / (prices.length : ℚ)

/-- Per-day accumulator of processData: { sum, count, min, max }. -/
structure DayAgg where
  sum : ℚ
  count : ℕ
  min : ℚ
  max : ℚ
  deriving DecidableEq

/-- One step of the daily grouping loop of processData: mutate the
accumulator entry of this date, or create it on first sight. -/
def addObs : List (ℕ × DayAgg) → ℕ → ℚ → List (ℕ × DayAgg)
  | [], date, price => [(date, ⟨price, 1, price, price⟩)]
  | (d, a) :: rest, date, price =>
    if d = date then
      (d, ⟨a.sum + price, a.count + 1, min a.min price, max a.max price⟩) :: rest
    else (d, a) :: addObs rest date price

/-- The dailyPrices grouping of processData over (date, price) pairs. -/
def dailyPricesMap (obs : List (ℕ × ℚ)) : List (ℕ × DayAgg) :=
  obs.foldl (fun m o => addObs m o.1 o.2) []

/-- Comparator of the final sorts: ascending date. -/
def dpLe (a b : DailyPrice) : Prop := a.date ≤ b.date

instance : DecidableRel dpLe := fun a b => Nat.decLe a.date b.date

instance : IsTotal DailyPrice dpLe := ⟨fun a b => Nat.le_total a.date b.date⟩

instance : IsTrans DailyPrice dpLe := ⟨fun _ _ _ hab hbc => Nat.le_trans hab hbc⟩

/-- dailyPriceArray of processData: one record per day with the average
rounded to 2 decimals and the raw min and max, sorted ascending by date. -/
def dailyPriceArray (obs : List (ℕ × ℚ)) : List DailyPrice :=
  List.insertionSort dpLe
    ((dailyPricesMap obs).map (fun e =>
      ⟨e.1, round2 (e.2.sum / (e.2.count : ℚ)), e.2.min, e.2.max⟩))

/-- Comparator of the hourly sorts: ascending datetime. -/
def hpLe (a b : HourlyPrice) : Prop := a.datetime ≤ b.datetime

instance : DecidableRel hpLe := fun a b => Nat.decLe a.datetime b.datetime

instance : IsTotal HourlyPrice hpLe := ⟨fun a b => Nat.le_total a.datetime b.datetime⟩

instance : IsTrans HourlyPrice hpLe := ⟨fun _ _ _ hab hbc => Nat.le_trans hab hbc⟩

/-- The date-window filter of dateRangePriceMetrics on hourly entries. -/
def filterRange (l : List HourlyPrice) (startT endT : ℕ) : List HourlyPrice :=
  l.filter (fun h => decide (startT ≤ h.datetime ∧ h.datetime ≤ endT))

/-- The date-window filter of dateRangePriceMetrics on daily records. -/
def filterDailyRange (l : List DailyPrice) (startT endT : ℕ) : List DailyPrice :=
  l.filter (fun d => decide (startT ≤ d.date ∧ d.date ≤ endT))

/-- The combinedData construction of dateRangePriceMetrics: filter the
static series to the window; when live data exists, additionally filter
it, drop every static entry whose timestamp occurs among the live entries
in range, append the live entries and sort ascending by datetime. -/
def mergeHybrid (staticData liveData : List HourlyPrice) (startT endT : ℕ) :
    List HourlyPrice :=
  let filteredStaticData := filterRange staticData startT endT
  if 0 < liveData.length then
    let livePricesInRange := filterRange liveData startT endT
    List.insertionSort hpLe
      ((filteredStaticData.filter
          (fun p => !(livePricesInRange.any (fun q => q.datetime == p.datetime))))
        ++ livePricesInRange)
  else filteredStaticData

/-- Average daily (max - min) spread of the estimation fallback. -/
def avgSpreadOf (l : List DailyPrice) : ℚ :=
  (l.map (fun d => d.maxPrice - d.minPrice)).sum / (l.length : ℚ)

/-- Average daily price of the estimation fallback. -/
def avgDailyPriceOf (l : List DailyPrice) : ℚ :=
  (l.map (fun d => d.avgPrice)).sum / (l.length : ℚ)

/-- dateRangePriceMetrics of FlexibilityCalculator.tsx: merge static and
live series over the requested window; with fewer than 24 hourly points
fall back to the estimation from daily records (none when no record is in
range), otherwise compute the exact metrics. -/
def dateRangePriceMetrics (recentHourly : List HourlyPrice)
    (dailyPrices : List DailyPrice) (livePriceData : List HourlyPrice)
    (startT endT : ℕ) : Option RangeMetrics :=
  let combinedData := mergeHybrid recentHourly livePriceData startT endT
  if combinedData.length < 24 then
    let filteredDailyData := filterDailyRange dailyPrices startT endT
    if filteredDailyData.length < 1 then none
    else
      let avgSpread := avgSpreadOf filteredDailyData
      let avgPrice := avgDailyPriceOf filteredDailyData
      some
        { h1 := ⟨avgSpread * (15/100), avgSpread * 150, avgSpread * (15/100) / avgPrice * 100⟩
          h2 := ⟨avgSpread * (25/100), avgSpread * 250, avgSpread * (25/100) / avgPrice * 100⟩
          h4 := ⟨avgSpread * (40/100), avgSpread * 400, avgSpread * (40/100) / avgPrice * 100⟩
          h8 := ⟨avgSpread * (60/100), avgSpread * 600, avgSpread * (60/100) / avgPrice * 100⟩
          isEstimated := true
          dataPoints := filteredDailyData.length
          avgPrice := avgPrice }
  else
    match calculatePriceFlexibility combinedData with
    | none => none
    | some m =>
      some
        { h1 := m.h1, h2 := m.h2, h4 := m.h4, h8 := m.h8
          isEstimated := false
          dataPoints := combinedData.length
          avgPrice := (combinedData.map (fun p => p.price)).sum / (combinedData.length : ℚ) }

/-- slice(-168) of the summary block of processData: the most recent 7-day
window of the sorted hourly series. -/
def recentWindow (ps : List HourlyPrice) : List HourlyPrice :=
  ps.drop (ps.length - 168)

/-- Stand-in for an out-of-bounds array read; never reached when the
window is nonempty. -/
def hpDefault : HourlyPrice := ⟨0, 0⟩

/-- currentPrice of the summary block: the last entry of the window, or
null when the window is empty. -/
def currentPrice (ps : List HourlyPrice) : Option ℚ :=
  if 0 < (recentWindow ps).length then
    some (((recentWindow ps).getLastD hpDefault).price)
  else none

/-- avgPrice7d of the summary block: the mean over the window rounded to
2 decimals, or null when the window is empty. -/
def avgPrice7d (ps : List HourlyPrice) : Option ℚ :=
  if 0 < (recentWindow ps).length then
    some (round2 (((recentWindow ps).map (fun x => x.price)).sum /
      ((recentWindow ps).length : ℚ)))
  else none

/-- Scenario series: 24 values alternating 50, 40 (spec scenario 2). -/
def alt24 : List ℚ := [50, 40, 50, 40, 50, 40, 50, 40, 50, 40, 50, 40,
  50, 40, 50, 40, 50, 40, 50, 40, 50, 40, 50, 40]

/-- The alternating scenario series as an hourly series. -/
def alt24h : List HourlyPrice := mkSeries alt24

/-- 24-point series that is flat except for a strictly higher last value;
only the excluded final index has positive savings. -/
def lastSpikeSeries : List HourlyPrice := mkSeries (List.replicate 23 10 ++ [20])

/-- 24-point series whose only expensive hours sit at the end, where the
loop bound of a larger window excludes them. -/
def tailSpikeSeries : List HourlyPrice := mkSeries (List.replicate 22 10 ++ [100, 100])

/-! ### Helper lemmas: the windowed-minimum scan -/

theorem foldl_min_le (step : ℚ → ℕ → ℚ) (hstep : ∀ m j, step m j ≤ m) :
    ∀ (L : List ℕ) (acc : ℚ), L.foldl step acc ≤ acc := by
  intro L
  induction L with
  | nil => intro acc; exact le_refl acc
  | cons x xs ih => intro acc; exact le_trans (ih (step acc x)) (hstep acc x)

theorem localMinAt_le (prices : List ℚ) (w i : ℕ) :
    localMinAt prices w i ≤ prices.getD i 0 := by
  simp only [localMinAt]
  refine le_trans (foldl_min_le _ ?_ _ _) (foldl_min_le _ ?_ _ _)
  · intro m j
    dsimp only
    split
    · exact min_le_left _ _
    · exact le_refl m
  · intro m j
    dsimp only
    split
    · exact min_le_left _ _
    · exact le_refl m

theorem savingsAt_nonneg (prices : List ℚ) (w i : ℕ) : 0 ≤ savingsAt prices w i :=
  sub_nonneg.mpr (localMinAt_le prices w i)

theorem foldl_pos_acc (f : ℕ → ℚ) :
    ∀ (L : List ℕ) (a : ℚ) (b : ℕ),
      L.foldl (fun acc i => if 0 < f i then (acc.1 + f i, acc.2 + 1) else acc) (a, b)
        = (a + ((L.filter (fun i => decide (0 < f i))).map f).sum,
           b + (L.filter (fun i => decide (0 < f i))).length) := by
  intro L
  induction L with
  | nil => intro a b; simp
  | cons x xs ih =>
    intro a b
    simp only [List.foldl_cons, List.filter_cons]
    by_cases hx : 0 < f x
    · rw [if_pos hx, ih]
      simp only [decide_eq_true_eq, if_pos hx, List.map_cons, List.sum_cons,
        List.length_cons, Prod.mk.injEq]
      exact ⟨by ring, by omega⟩
    · rw [if_neg hx, ih]
      simp only [decide_eq_true_eq, if_neg hx]

theorem windowTotals_eq (prices : List ℚ) (w : ℕ) :
    windowTotals prices w =
      ((((List.range (prices.length - w)).filter
          (fun i => decide (0 < savingsAt prices w i))).map
          (fun i => savingsAt prices w i)).sum,
       ((List.range (prices.length - w)).filter
          (fun i => decide (0 < savingsAt prices w i))).length) := by
  have h := foldl_pos_acc (fun i => savingsAt prices w i)
    (List.range (prices.length - w)) 0 0
  simpa [windowTotals] using h

theorem metricFor_avgSavings (prices : List ℚ) (w : ℕ) :
    (metricFor prices w).avgSavingsPerMWh = round2 (codeAvgSavings prices w) := by
  simp only [metricFor, codeAvgSavings, windowTotals_eq]
  by_cases h : 0 < ((List.range (prices.length - w)).filter
      (fun i => decide (0 < savingsAt prices w i))).length
  · rw [if_pos h]
  · rw [if_neg h]
    have hnil : ((List.range (prices.length - w)).filter
        (fun i => decide (0 < savingsAt prices w i))) = [] :=
      List.length_eq_zero.mp (Nat.eq_zero_of_not_pos h)
    rw [hnil]
    simp

theorem codeAvgSavings_nonneg (prices : List ℚ) (w : ℕ) : 0 ≤ codeAvgSavings prices w := by
  apply div_nonneg _ (Nat.cast_nonneg _)
  apply List.sum_nonneg
  intro x hx
  obtain ⟨i, hi, rfl⟩ := List.mem_map.mp hx
  exact le_of_lt (of_decide_eq_true (List.mem_filter.mp hi).2)

/-! ### Helper lemmas: JavaScript rounding -/

theorem jsRound_zero : jsRound 0 = 0 := by
  simp only [jsRound, zero_add]
  norm_num

theorem round2_zero : round2 0 = 0 := by
  simp only [round2, jsRound, zero_mul, zero_add]
  norm_num

theorem round2_nonneg {q : ℚ} (h : 0 ≤ q) : 0 ≤ round2 q := by
  apply div_nonneg _ (by norm_num)
  have h0 : (0:ℤ) ≤ ⌊q * 100 + 1/2⌋ := by
    apply Int.floor_nonneg.mpr
    have : 0 ≤ q * 100 := by positivity
    linarith
  simp only [jsRound]
  exact_mod_cast h0

theorem round2_le (q : ℚ) : round2 q ≤ q + 1/200 := by
  have h : ((jsRound (q * 100) : ℚ)) ≤ q * 100 + 1/2 := by
    simpa [jsRound] using Int.floor_le (q * 100 + 1/2)
  have h2 : (jsRound (q * 100) : ℚ) / 100 ≤ (q * 100 + 1/2) / 100 := by
    apply div_le_div_of_nonneg_right h
    norm_num
  calc round2 q = (jsRound (q * 100) : ℚ) / 100 := rfl
    _ ≤ (q * 100 + 1/2) / 100 := h2
    _ = q + 1/200 := by ring

theorem le_round2 (q : ℚ) : q - 1/200 ≤ round2 q := by
  have h : q * 100 + 1/2 - 1 < (jsRound (q * 100) : ℚ) := by
    simp only [jsRound]
    exact Int.sub_one_lt_floor (q * 100 + 1/2)
  have h2 : (q * 100 - 1/2) / 100 ≤ (jsRound (q * 100) : ℚ) / 100 := by
    apply div_le_div_of_nonneg_right (le_of_lt (by linarith))
    norm_num
  calc q - 1/200 = (q * 100 - 1/2) / 100 := by ring
    _ ≤ (jsRound (q * 100) : ℚ) / 100 := h2
    _ = round2 q := rfl

/-! ### Helper lemmas: the length guard -/

theorem flexCore_eq_none {prices : List ℚ} (h : prices.length < 24) :
    flexCore prices = none := by
  simp [flexCore, h]

theorem flexCore_eq_some {prices : List ℚ} (h : 24 ≤ prices.length) :
    flexCore prices =
      some ⟨metricFor prices 1, metricFor prices 2, metricFor prices 4, metricFor prices 8⟩ := by
  simp [flexCore, Nat.not_lt.mpr h]

/-! ### Helper lemmas: constant series -/

theorem getD_eq_of_forall_eq {l : List ℚ} {c : ℚ} (hc : ∀ x ∈ l, x = c) {i : ℕ}
    (hi : i < l.length) : l.getD i 0 = c := by
  rw [List.getD_eq_getElem l 0 hi]
  exact hc _ (List.getElem_mem hi)

theorem foldl_fixed (step : ℚ → ℕ → ℚ) (c : ℚ) (h : ∀ j, step c j = c) :
    ∀ L : List ℕ, L.foldl step c = c := by
  intro L
  induction L with
  | nil => rfl
  | cons x xs ih => rw [List.foldl_cons, h x, ih]

theorem localMinAt_const {l : List ℚ} {c : ℚ} (hc : ∀ x ∈ l, x = c) {w i : ℕ}
    (hi : i < l.length) : localMinAt l w i = c := by
  simp only [localMinAt]
  rw [getD_eq_of_forall_eq hc hi]
  have hfwd : (List.range w).foldl
      (fun m j => if i + j + 1 < l.length then min m (l.getD (i + j + 1) 0) else m) c = c := by
    apply foldl_fixed
    intro j
    dsimp only
    split
    · rw [getD_eq_of_forall_eq hc (by omega), min_self]
    · rfl
  rw [hfwd]
  apply foldl_fixed
  intro j
  dsimp only
  split
  · rw [getD_eq_of_forall_eq hc (by omega), min_self]
  · rfl

theorem savingsAt_const {l : List ℚ} {c : ℚ} (hc : ∀ x ∈ l, x = c) {w i : ℕ}
    (hi : i < l.length) : savingsAt l w i = 0 := by
  rw [savingsAt, getD_eq_of_forall_eq hc hi, localMinAt_const hc hi, sub_self]

theorem foldl_skip {α : Type} (step : α → ℕ → α) :
    ∀ (L : List ℕ) (acc : α), (∀ i ∈ L, ∀ a, step a i = a) → L.foldl step acc = acc := by
  intro L
  induction L with
  | nil => intro acc _; rfl
  | cons x xs ih =>
    intro acc h
    rw [List.foldl_cons, h x (List.mem_cons_self x xs) acc]
    exact ih acc (fun i hi a => h i (List.mem_cons_of_mem x hi) a)

theorem windowTotals_const {l : List ℚ} {c : ℚ} (hc : ∀ x ∈ l, x = c) (w : ℕ) :
    windowTotals l w = (0, 0) := by
  apply foldl_skip
  intro i hi a
  have hilt : i < l.length := by
    have := List.mem_range.mp hi
    omega
  rw [savingsAt_const hc hilt]
  simp

theorem metricFor_const {l : List ℚ} {c : ℚ} (hc : ∀ x ∈ l, x = c) (w : ℕ) :
    (metricFor l w).avgSavingsPerMWh = 0 := by
  simp only [metricFor, windowTotals_const hc w]
  norm_num [round2_zero]

/-! ### Helper lemmas: series construction -/

theorem mkSeriesFrom_map_price : ∀ (qs : List ℚ) (t : ℕ),
    (mkSeriesFrom t qs).map (fun p => p.price) = qs := by
  intro qs
  induction qs with
  | nil => intro t; rfl
  | cons q qs ih => intro t; simp [mkSeriesFrom, ih]

theorem mkSeries_map_price (qs : List ℚ) : (mkSeries qs).map (fun p => p.price) = qs :=
  mkSeriesFrom_map_price qs 0

theorem mkSeriesFrom_price_mem : ∀ (qs : List ℚ) (t : ℕ) (p : HourlyPrice),
    p ∈ mkSeriesFrom t qs → p.price ∈ qs := by
  intro qs
  induction qs with
  | nil => intro t p hp; cases hp
  | cons q qs ih =>
    intro t p hp
    rcases List.mem_cons.mp hp with rfl | hmem
    · exact List.mem_cons_self _ _
    · exact List.mem_cons_of_mem _ (ih (t + 1) p hmem)

theorem mkSeries_length (qs : List ℚ) : (mkSeries qs).length = qs.length := by
  have := congrArg List.length (mkSeries_map_price qs)
  simpa using this

/-! ### Helper lemmas: daily aggregation invariant -/

/-- The invariant the grouping loop maintains on every accumulator entry. -/
def aggInv (e : ℕ × DayAgg) : Prop :=
  0 < e.2.count ∧ e.2.min * (e.2.count : ℚ) ≤ e.2.sum ∧
    e.2.sum ≤ e.2.max * (e.2.count : ℚ) ∧ e.2.min ≤ e.2.max

theorem addObs_inv : ∀ (m : List (ℕ × DayAgg)) (date : ℕ) (price : ℚ),
    (∀ e ∈ m, aggInv e) → ∀ e ∈ addObs m date price, aggInv e := by
  intro m
  induction m with
  | nil =>
    intro date price _ e he
    simp only [addObs, List.mem_singleton] at he
    subst he
    refine ⟨Nat.one_pos, ?_, ?_, le_refl _⟩ <;> simp
  | cons hd rest ih =>
    intro date price hinv e he
    obtain ⟨d, a⟩ := hd
    simp only [addObs] at he
    by_cases hd : d = date
    · rw [if_pos hd] at he
      rcases List.mem_cons.mp he with rfl | hmem
      · have ha : aggInv (d, a) := hinv _ (List.mem_cons_self _ _)
        obtain ⟨hc, hmin, hmax, hmm⟩ := ha
        refine ⟨Nat.succ_pos _, ?_, ?_, ?_⟩
        · show min a.min price * ((a.count + 1 : ℕ) : ℚ) ≤ a.sum + price
          have h1 : min a.min price * ((a.count + 1 : ℕ) : ℚ)
              = min a.min price * (a.count : ℚ) + min a.min price := by
            push_cast
            ring
          rw [h1]
          have h2 : min a.min price * (a.count : ℚ) ≤ a.min * (a.count : ℚ) :=
            mul_le_mul_of_nonneg_right (min_le_left _ _) (Nat.cast_nonneg _)
          have h3 : min a.min price ≤ price := min_le_right _ _
          linarith
        · show a.sum + price ≤ max a.max price * ((a.count + 1 : ℕ) : ℚ)
          have h1 : max a.max price * ((a.count + 1 : ℕ) : ℚ)
              = max a.max price * (a.count : ℚ) + max a.max price := by
            push_cast
            ring
          rw [h1]
          have h2 : a.max * (a.count : ℚ) ≤ max a.max price * (a.count : ℚ) :=
            mul_le_mul_of_nonneg_right (le_max_left _ _) (Nat.cast_nonneg _)
          have h3 : price ≤ max a.max price := le_max_right _ _
          linarith
        · show min a.min price ≤ max a.max price
          exact le_trans (min_le_left _ _) (le_trans hmm (le_max_left _ _))
      · exact hinv _ (List.mem_cons_of_mem _ hmem)
    · rw [if_neg hd] at he
      rcases List.mem_cons.mp he with rfl | hmem
      · exact hinv _ (List.mem_cons_self _ _)
      · exact ih date price (fun x hx => hinv x (List.mem_cons_of_mem _ hx)) e hmem

theorem dailyPricesMap_inv (obs : List (ℕ × ℚ)) :
    ∀ e ∈ dailyPricesMap obs, aggInv e := by
  have main : ∀ (L : List (ℕ × ℚ)) (m : List (ℕ × DayAgg)),
      (∀ e ∈ m, aggInv e) →
      ∀ e ∈ L.foldl (fun m o => addObs m o.1 o.2) m, aggInv e := by
    intro L
    induction L with
    | nil => intro m hm e he; exact hm e he
    | cons o rest ih =>
      intro m hm e he
      exact ih (addObs m o.1 o.2) (addObs_inv m o.1 o.2 hm) e he
  exact main obs [] (by intro e he; cases he)

/-! ### Helper lemmas: sorted lists and the 7-day window -/

theorem getLastD_mem {α : Type} : ∀ (l : List α) (d : α), l ≠ [] → l.getLastD d ∈ l := by
  intro l
  induction l with
  | nil => intro d h; exact absurd rfl h
  | cons x xs ih =>
    intro d _
    cases xs with
    | nil => simp [List.getLastD]
    | cons y ys =>
      rw [List.getLastD_cons]
      exact List.mem_cons_of_mem x (ih x (by simp))

theorem pairwise_hpLe_getLastD :
    ∀ (l : List HourlyPrice), l.Pairwise hpLe → ∀ (d q : HourlyPrice), q ∈ l →
      q.datetime ≤ (l.getLastD d).datetime := by
  intro l
  induction l with
  | nil => intro _ d q hq; cases hq
  | cons x xs ih =>
    intro hp d q hq
    cases xs with
    | nil =>
      rcases List.mem_singleton.mp hq with rfl
      simp [List.getLastD]
    | cons y ys =>
      rw [List.getLastD_cons]
      rcases List.mem_cons.mp hq with rfl | hmem
      · have hxall : ∀ z ∈ y :: ys, hpLe q z := (List.pairwise_cons.mp hp).1
        exact hxall _ (getLastD_mem (y :: ys) q (by simp))
      · exact ih (List.pairwise_cons.mp hp).2 x q hmem

theorem recentWindow_length_pos {ps : List HourlyPrice} (h : ps ≠ []) :
    0 < (recentWindow ps).length := by
  have hlen : 0 < ps.length := List.length_pos.mpr h
  simp only [recentWindow, List.length_drop]
  omega

theorem recentWindow_pairwise {ps : List HourlyPrice} (h : ps.Pairwise hpLe) :
    (recentWindow ps).Pairwise hpLe :=
  List.Pairwise.sublist (List.drop_sublist _ _) h

/-! ### Bridging lemmas for the two calculator entry points -/

theorem calculateFlexibilityMetrics_eq_none {data : List HourlyPrice}
    (h : data.length < 24) : calculateFlexibilityMetrics data = none :=
  flexCore_eq_none (by simpa using h)

theorem calculateFlexibilityMetrics_eq_some {data : List HourlyPrice}
    (h : 24 ≤ data.length) :
    calculateFlexibilityMetrics data = some
      ⟨metricFor (data.map (fun p => p.price)) 1, metricFor (data.map (fun p => p.price)) 2,
       metricFor (data.map (fun p => p.price)) 4, metricFor (data.map (fun p => p.price)) 8⟩ :=
  flexCore_eq_some (by simpa using h)

theorem calculatePriceFlexibility_eq_none {data : List HourlyPrice}
    (h : data.length < 24) : calculatePriceFlexibility data = none :=
  flexCore_eq_none (by simpa using h)

theorem calculatePriceFlexibility_eq_some {data : List HourlyPrice}
    (h : 24 ≤ data.length) :
    calculatePriceFlexibility data = some
      ⟨metricFor (data.map (fun p => p.price)) 1, metricFor (data.map (fun p => p.price)) 2,
       metricFor (data.map (fun p => p.price)) 4, metricFor (data.map (fun p => p.price)) 8⟩ :=
  flexCore_eq_some (by simpa using h)

/-! ### Claim theorems -/

/-- C4: a series with fewer than 24 observations makes the calculator
return the insufficient-data outcome null, with no metric for any window,
and a series with at least 24 observations produces a metric map with one
metric per window size. -/
theorem c4_insufficient_data (data : List HourlyPrice) :
    (data.length < 24 → calculateFlexibilityMetrics data = none)
    ∧ (24 ≤ data.length → ∃ m : FlexMetrics, calculateFlexibilityMetrics data = some m) :=
  ⟨fun h => calculateFlexibilityMetrics_eq_none h,
   fun h => ⟨_, calculateFlexibilityMetrics_eq_some h⟩⟩

/-- Witness for C4 at a 10-point series (null) and a 24-point series
(metrics produced). -/
theorem c4_insufficient_data_witness :
    calculateFlexibilityMetrics (mkSeries (List.replicate 10 (3:ℚ))) = none
    ∧ ∃ m : FlexMetrics,
        calculateFlexibilityMetrics (mkSeries (List.replicate 24 (3:ℚ))) = some m :=
  ⟨(c4_insufficient_data _).1 (by rw [mkSeries_length]; norm_num),
   (c4_insufficient_data _).2 (by rw [mkSeries_length]; norm_num)⟩

/-- C7: on the 24-point alternating series 50, 40, 50, 40, ... the
calculator reports avgSavingsPerMWh = 5 for the 1h window:
(12 * 10) / 24 = 5. -/
theorem c7_alternating_scenario :
    (calculateFlexibilityMetrics alt24h).map (fun m => m.h1.avgSavingsPerMWh) = some 5 := by
  have hmap : alt24h.map (fun p => p.price) = alt24 := mkSeries_map_price alt24
  have h24 : 24 ≤ alt24h.length := by rw [alt24h, mkSeries_length]; norm_num [alt24]
  rw [calculateFlexibilityMetrics_eq_some h24, hmap, Option.map_some']
  refine congrArg some ?_
  show (metricFor alt24 1).avgSavingsPerMWh = 5
  norm_num [metricFor, windowTotals, savingsAt, localMinAt, round2, jsRound, alt24,
    List.range_succ]

/-- C8: every per-position savings value is nonnegative; every reported
avgSavingsPerMWh is nonnegative; an all-identical series of at least 24
points yields a real metric map with avgSavings = 0 for every window
rather than an error. -/
theorem c8_savings_nonneg :
    (∀ (prices : List ℚ) (w i : ℕ), 0 ≤ savingsAt prices w i)
    ∧ (∀ (data : List HourlyPrice) (m : FlexMetrics),
        calculatePriceFlexibility data = some m →
          0 ≤ m.h1.avgSavingsPerMWh ∧ 0 ≤ m.h2.avgSavingsPerMWh ∧
          0 ≤ m.h4.avgSavingsPerMWh ∧ 0 ≤ m.h8.avgSavingsPerMWh)
    ∧ (∀ (data : List HourlyPrice) (c : ℚ), 24 ≤ data.length →
        (∀ p ∈ data, p.price = c) →
        ∃ m : FlexMetrics, calculatePriceFlexibility data = some m ∧
          m.h1.avgSavingsPerMWh = 0 ∧ m.h2.avgSavingsPerMWh = 0 ∧
          m.h4.avgSavingsPerMWh = 0 ∧ m.h8.avgSavingsPerMWh = 0) := by
  refine ⟨savingsAt_nonneg, ?_, ?_⟩
  · intro data m hm
    by_cases h : data.length < 24
    · rw [calculatePriceFlexibility_eq_none h] at hm
      cases hm
    · rw [calculatePriceFlexibility_eq_some (Nat.not_lt.mp h)] at hm
      obtain rfl := (Option.some.inj hm).symm
      refine ⟨?_, ?_, ?_, ?_⟩ <;>
        · rw [metricFor_avgSavings]
          exact round2_nonneg (codeAvgSavings_nonneg _ _)
  · intro data c h24 hall
    have hc : ∀ x ∈ data.map (fun p => p.price), x = c := by
      intro x hx
      obtain ⟨p, hp, rfl⟩ := List.mem_map.mp hx
      exact hall p hp
    exact ⟨_, calculatePriceFlexibility_eq_some h24,
      metricFor_const hc 1, metricFor_const hc 2, metricFor_const hc 4, metricFor_const hc 8⟩

/-- Witness for C8: a concrete position of a concrete series, and the
constant 24-point series of value 7. -/
theorem c8_savings_nonneg_witness :
    0 ≤ savingsAt [3, 1] 1 0
    ∧ ∃ m : FlexMetrics,
        calculatePriceFlexibility (mkSeries (List.replicate 24 (7:ℚ))) = some m ∧
          m.h1.avgSavingsPerMWh = 0 ∧ m.h2.avgSavingsPerMWh = 0 ∧
          m.h4.avgSavingsPerMWh = 0 ∧ m.h8.avgSavingsPerMWh = 0 :=
  ⟨c8_savings_nonneg.1 [3, 1] 1 0,
   c8_savings_nonneg.2.2 _ 7 (by rw [mkSeries_length]; norm_num)
     (fun p hp => List.eq_of_mem_replicate (mkSeriesFrom_price_mem _ _ p hp))⟩

set_option maxHeartbeats 2000000 in
/-- C1 counterexample: on the 24-point series that is flat at 10 with a
final value 20 and window 1, the spec formula (every index included, the
window clipped at the end) reports round2 (10/24) = 0.42, while the code,
whose loop stops at index length - w - 1, reports 0. -/
theorem c1_counterexample :
    (calculateFlexibilityMetrics lastSpikeSeries).map (fun m => m.h1.avgSavingsPerMWh) = some 0
    ∧ round2 (claimAvgSavings (lastSpikeSeries.map (fun p => p.price)) 1) = 21/50
    ∧ (0 : ℚ) ≠ 21/50 := by
  have hmap : lastSpikeSeries.map (fun p => p.price) = List.replicate 23 10 ++ [20] :=
    mkSeries_map_price _
  have h24 : 24 ≤ lastSpikeSeries.length := by
    rw [lastSpikeSeries, mkSeries_length]
    norm_num
  refine ⟨?_, ?_, by norm_num⟩
  · rw [calculateFlexibilityMetrics_eq_some h24, hmap, Option.map_some']
    refine congrArg some ?_
    show (metricFor (List.replicate 23 10 ++ [20]) 1).avgSavingsPerMWh = 0
    norm_num [metricFor, windowTotals, savingsAt, localMinAt, round2, jsRound,
      List.range_succ, List.replicate]
  · rw [hmap]
    norm_num [claimAvgSavings, savingsAt, localMinAt, round2, jsRound,
      List.range_succ, List.replicate]

/-- C1 amended: for every series of at least 24 observations and each
window w in {1, 2, 4, 8}, the reported avgSavings equals the positive
savings summed over the loop range 0 <= i < n - w only (the last w indices
are excluded from the scan, not merely clipped), divided by the full
series length and rounded to 2 decimals. -/
theorem c1_reported_formula (data : List HourlyPrice) (h : 24 ≤ data.length) :
    ∃ m : FlexMetrics, calculateFlexibilityMetrics data = some m ∧
      m.h1.avgSavingsPerMWh = round2 (codeAvgSavings (data.map (fun p => p.price)) 1) ∧
      m.h2.avgSavingsPerMWh = round2 (codeAvgSavings (data.map (fun p => p.price)) 2) ∧
      m.h4.avgSavingsPerMWh = round2 (codeAvgSavings (data.map (fun p => p.price)) 4) ∧
      m.h8.avgSavingsPerMWh = round2 (codeAvgSavings (data.map (fun p => p.price)) 8) :=
  ⟨_, calculateFlexibilityMetrics_eq_some h,
    metricFor_avgSavings _ 1, metricFor_avgSavings _ 2,
    metricFor_avgSavings _ 4, metricFor_avgSavings _ 8⟩

/-- Witness for the amended C1 at the alternating 24-point series. -/
theorem c1_reported_formula_witness :
    ∃ m : FlexMetrics, calculateFlexibilityMetrics (mkSeries (List.replicate 24 (2:ℚ))) = some m ∧
      m.h1.avgSavingsPerMWh
        = round2 (codeAvgSavings ((mkSeries (List.replicate 24 (2:ℚ))).map (fun p => p.price)) 1) ∧
      m.h2.avgSavingsPerMWh
        = round2 (codeAvgSavings ((mkSeries (List.replicate 24 (2:ℚ))).map (fun p => p.price)) 2) ∧
      m.h4.avgSavingsPerMWh
        = round2 (codeAvgSavings ((mkSeries (List.replicate 24 (2:ℚ))).map (fun p => p.price)) 4) ∧
      m.h8.avgSavingsPerMWh
        = round2 (codeAvgSavings ((mkSeries (List.replicate 24 (2:ℚ))).map (fun p => p.price)) 8) :=
  c1_reported_formula _ (by rw [mkSeries_length]; norm_num)

set_option maxHeartbeats 2000000 in
/-- C2 failure: on the 24-point series flat at 10 with two final values of
100, the 1h window reports avgSavingsPerMWh = 3.75 but the 2h window
reports 0, because the loop bound i < n - w excludes the expensive tail
entirely for the larger window; the spec requires the 2h value to be at
least the 1h value. -/
theorem c2_monotonicity_failure :
    (calculateFlexibilityMetrics tailSpikeSeries).map (fun m => m.h1.avgSavingsPerMWh)
        = some (15/4)
    ∧ (calculateFlexibilityMetrics tailSpikeSeries).map (fun m => m.h2.avgSavingsPerMWh)
        = some 0
    ∧ ((0 : ℚ) < 15/4) := by
  have hmap : tailSpikeSeries.map (fun p => p.price) = List.replicate 22 10 ++ [100, 100] :=
    mkSeries_map_price _
  have h24 : 24 ≤ tailSpikeSeries.length := by
    rw [tailSpikeSeries, mkSeries_length]
    norm_num
  refine ⟨?_, ?_, by norm_num⟩
  · rw [calculateFlexibilityMetrics_eq_some h24, hmap, Option.map_some']
    refine congrArg some ?_
    show (metricFor (List.replicate 22 10 ++ [100, 100]) 1).avgSavingsPerMWh = 15/4
    norm_num [metricFor, windowTotals, savingsAt, localMinAt, round2, jsRound,
      List.range_succ, List.replicate]
  · rw [calculateFlexibilityMetrics_eq_some h24, hmap, Option.map_some']
    refine congrArg some ?_
    show (metricFor (List.replicate 22 10 ++ [100, 100]) 2).avgSavingsPerMWh = 0
    norm_num [metricFor, windowTotals, savingsAt, localMinAt, round2, jsRound,
      List.range_succ, List.replicate]

/-- C3 counterexample: a single observation of 0.005 produces a daily
record with minValue = maxValue = 1/200 but a reported rounded avgValue
of 1/100, violating avgValue <= maxValue. -/
theorem c3_counterexample :
    dailyPriceArray [(0, 1/200)] = [⟨0, 1/100, 1/200, 1/200⟩]
    ∧ ¬ ((1:ℚ)/100 ≤ 1/200) := by
  constructor
  · norm_num [dailyPriceArray, dailyPricesMap, addObs, round2, jsRound,
      List.insertionSort, List.orderedInsert]
  · norm_num

/-- C3 amended: for every input series and every produced DailyRecord the
full-precision mean lies within [minValue, maxValue], and the reported
avgValue, rounded to 2 decimals, lies within those bounds relaxed by the
half-cent rounding error 1/200. -/
theorem c3_daily_invariant (obs : List (ℕ × ℚ)) :
    ∀ r ∈ dailyPriceArray obs,
      (∃ mean : ℚ, r.minPrice ≤ mean ∧ mean ≤ r.maxPrice ∧ r.avgPrice = round2 mean)
      ∧ r.minPrice - 1/200 ≤ r.avgPrice ∧ r.avgPrice ≤ r.maxPrice + 1/200 := by
  intro r hr
  have hr2 : r ∈ (dailyPricesMap obs).map (fun e =>
      (⟨e.1, round2 (e.2.sum / (e.2.count : ℚ)), e.2.min, e.2.max⟩ : DailyPrice)) :=
    (List.perm_insertionSort dpLe _).mem_iff.mp hr
  obtain ⟨e, he, rfl⟩ := List.mem_map.mp hr2
  obtain ⟨hc, hmin, hmax, _⟩ := dailyPricesMap_inv obs e he
  have hcpos : (0:ℚ) < (e.2.count : ℚ) := by exact_mod_cast hc
  have hminle : e.2.min ≤ e.2.sum / (e.2.count : ℚ) := (le_div_iff₀ hcpos).mpr hmin
  have hmaxle : e.2.sum / (e.2.count : ℚ) ≤ e.2.max := (div_le_iff₀ hcpos).mpr hmax
  refine ⟨⟨e.2.sum / (e.2.count : ℚ), hminle, hmaxle, rfl⟩, ?_, ?_⟩
  · have := le_round2 (e.2.sum / (e.2.count : ℚ))
    show e.2.min - 1/200 ≤ round2 (e.2.sum / (e.2.count : ℚ))
    linarith
  · have := round2_le (e.2.sum / (e.2.count : ℚ))
    show round2 (e.2.sum / (e.2.count : ℚ)) ≤ e.2.max + 1/200
    linarith

/-- Witness for the amended C3 at one day holding the two observations
2 and 4, whose record is (0, 3, 2, 4). -/
theorem c3_daily_invariant_witness :
    (⟨0, 3, 2, 4⟩ : DailyPrice) ∈ dailyPriceArray [(0, 2), (0, 4)]
    ∧ ((∃ mean : ℚ, (2:ℚ) ≤ mean ∧ mean ≤ 4 ∧ (3:ℚ) = round2 mean)
        ∧ (2:ℚ) - 1/200 ≤ 3 ∧ (3:ℚ) ≤ 4 + 1/200) := by
  have hmem : (⟨0, 3, 2, 4⟩ : DailyPrice) ∈ dailyPriceArray [(0, 2), (0, 4)] := by
    norm_num [dailyPriceArray, dailyPricesMap, addObs, round2, jsRound,
      List.insertionSort, List.orderedInsert]
  exact ⟨hmem, c3_daily_invariant _ _ hmem⟩

/-- C5: whenever the static archive is sorted (the Series invariant),
the merged hybrid series contains every live value in range, contains
only live values at timestamps covered by live entries in range (the
static observation is dropped), and is sorted ascending by timestamp;
in particular merging static [(1,5),(2,6)] with live [(2,9)] over the
window [0,10] yields [(1,5),(2,9)]. -/
theorem c5_merge_correctness :
    (∀ (staticData liveData : List HourlyPrice) (startT endT : ℕ),
      staticData.Pairwise hpLe →
        (∀ q ∈ filterRange liveData startT endT,
            q ∈ mergeHybrid staticData liveData startT endT)
        ∧ (∀ p ∈ mergeHybrid staticData liveData startT endT,
            (∃ q ∈ filterRange liveData startT endT, q.datetime = p.datetime) →
              p ∈ filterRange liveData startT endT)
        ∧ (mergeHybrid staticData liveData startT endT).Pairwise hpLe)
    ∧ mergeHybrid [⟨1, 5⟩, ⟨2, 6⟩] [⟨2, 9⟩] 0 10 = [⟨1, 5⟩, ⟨2, 9⟩] := by
  constructor
  · intro staticData liveData startT endT hs
    by_cases hl : 0 < liveData.length
    · simp only [mergeHybrid, if_pos hl]
      refine ⟨?_, ?_, ?_⟩
      · intro q hq
        exact (List.perm_insertionSort hpLe _).mem_iff.mpr
          (List.mem_append_right _ hq)
      · intro p hp ⟨q, hq, hqd⟩
        have hp2 := (List.perm_insertionSort hpLe _).mem_iff.mp hp
        rcases List.mem_append.mp hp2 with hkept | hlive
        · exfalso
          have hfil := (List.mem_filter.mp hkept).2
          have hany : (filterRange liveData startT endT).any
              (fun x => x.datetime == p.datetime) = true :=
            List.any_eq_true.mpr ⟨q, hq, beq_iff_eq.mpr hqd⟩
          rw [hany] at hfil
          cases hfil
        · exact hlive
      · exact List.sorted_insertionSort hpLe _
    · simp only [mergeHybrid, if_neg hl]
      have hnil : liveData = [] := List.length_eq_zero.mp (Nat.eq_zero_of_not_pos hl)
      subst hnil
      refine ⟨?_, ?_, ?_⟩
      · intro q hq
        simp [filterRange] at hq
      · intro p _ ⟨q, hq, _⟩
        simp [filterRange] at hq
      · exact List.Pairwise.filter _ hs
  · norm_num [mergeHybrid, filterRange, List.insertionSort, List.orderedInsert, hpLe]

/-- Witness for C5: the live value (2,9) is a member of the concrete
merged series. -/
theorem c5_merge_correctness_witness :
    (⟨2, 9⟩ : HourlyPrice) ∈ mergeHybrid [⟨1, 5⟩, ⟨2, 6⟩] [⟨2, 9⟩] 0 10 :=
  (c5_merge_correctness.1 [⟨1, 5⟩, ⟨2, 6⟩] [⟨2, 9⟩] 0 10
      (by norm_num [List.pairwise_cons, hpLe])).1
    ⟨2, 9⟩ (by norm_num [filterRange])

/-- C6: with fewer than 24 merged hourly points, dateRangePriceMetrics
returns null when no daily record is in the window and an estimated
result tagged isEstimated = true when at least one is; with 24 or more
merged points it returns an exact result tagged isEstimated = false, so
estimated and exact results are always distinguishable. -/
theorem c6_provenance_flags (recentHourly : List HourlyPrice) (daily : List DailyPrice)
    (live : List HourlyPrice) (startT endT : ℕ) :
    ((mergeHybrid recentHourly live startT endT).length < 24 →
      ((filterDailyRange daily startT endT).length = 0 →
          dateRangePriceMetrics recentHourly daily live startT endT = none)
      ∧ (0 < (filterDailyRange daily startT endT).length →
          ∃ r : RangeMetrics,
            dateRangePriceMetrics recentHourly daily live startT endT = some r
            ∧ r.isEstimated = true))
    ∧ (24 ≤ (mergeHybrid recentHourly live startT endT).length →
        ∃ r : RangeMetrics,
          dateRangePriceMetrics recentHourly daily live startT endT = some r
          ∧ r.isEstimated = false) := by
  constructor
  · intro hlen
    constructor
    · intro hd
      simp only [dateRangePriceMetrics, if_pos hlen]
      rw [if_pos (by omega)]
    · intro hd
      simp only [dateRangePriceMetrics, if_pos hlen]
      rw [if_neg (by omega)]
      exact ⟨_, rfl, rfl⟩
  · intro hlen
    simp only [dateRangePriceMetrics, if_neg (Nat.not_lt.mpr hlen)]
    rw [calculatePriceFlexibility_eq_some hlen]
    exact ⟨_, rfl, rfl⟩

/-- Witness for C6 at one daily record inside an otherwise empty window:
the estimated branch fires with isEstimated = true. -/
theorem c6_provenance_flags_witness :
    ∃ r : RangeMetrics,
      dateRangePriceMetrics [] [⟨0, 10, 5, 15⟩] [] 0 5 = some r ∧ r.isEstimated = true :=
  ((c6_provenance_flags [] [⟨0, 10, 5, 15⟩] [] 0 5).1
      (by norm_num [mergeHybrid, filterRange])).2
    (by norm_num [filterDailyRange])

/-- C10: in the estimated fallback, the four avgSavingsPerMWh values are
the fixed fractions 15/100, 25/100, 40/100, 60/100 of the average daily
(max - min) spread; with the DailyRecord invariant min <= max the spread
is nonnegative, so the four values are nondecreasing in window size, and
savingsPerGWh is exactly 1000 times avgSavingsPerMWh with no integer
rounding. -/
theorem c10_estimated_fractions (recentHourly : List HourlyPrice) (daily : List DailyPrice)
    (live : List HourlyPrice) (startT endT : ℕ)
    (hlen : (mergeHybrid recentHourly live startT endT).length < 24)
    (hne : 0 < (filterDailyRange daily startT endT).length)
    (hrec : ∀ d ∈ daily, d.minPrice ≤ d.maxPrice) :
    ∃ r : RangeMetrics,
      dateRangePriceMetrics recentHourly daily live startT endT = some r
      ∧ r.h1.avgSavingsPerMWh = avgSpreadOf (filterDailyRange daily startT endT) * (15/100)
      ∧ r.h2.avgSavingsPerMWh = avgSpreadOf (filterDailyRange daily startT endT) * (25/100)
      ∧ r.h4.avgSavingsPerMWh = avgSpreadOf (filterDailyRange daily startT endT) * (40/100)
      ∧ r.h8.avgSavingsPerMWh = avgSpreadOf (filterDailyRange daily startT endT) * (60/100)
      ∧ 0 ≤ avgSpreadOf (filterDailyRange daily startT endT)
      ∧ r.h1.avgSavingsPerMWh ≤ r.h2.avgSavingsPerMWh
      ∧ r.h2.avgSavingsPerMWh ≤ r.h4.avgSavingsPerMWh
      ∧ r.h4.avgSavingsPerMWh ≤ r.h8.avgSavingsPerMWh
      ∧ r.h1.savingsPerGWh = 1000 * r.h1.avgSavingsPerMWh
      ∧ r.h2.savingsPerGWh = 1000 * r.h2.avgSavingsPerMWh
      ∧ r.h4.savingsPerGWh = 1000 * r.h4.avgSavingsPerMWh
      ∧ r.h8.savingsPerGWh = 1000 * r.h8.avgSavingsPerMWh := by
  have hspread : 0 ≤ avgSpreadOf (filterDailyRange daily startT endT) := by
    apply div_nonneg _ (Nat.cast_nonneg _)
    apply List.sum_nonneg
    intro x hx
    obtain ⟨d, hd, rfl⟩ := List.mem_map.mp hx
    have hdmem : d ∈ daily := (List.mem_filter.mp hd).1
    linarith [hrec d hdmem]
  have heq : dateRangePriceMetrics recentHourly daily live startT endT = some
      { h1 := ⟨avgSpreadOf (filterDailyRange daily startT endT) * (15/100),
               avgSpreadOf (filterDailyRange daily startT endT) * 150,
               avgSpreadOf (filterDailyRange daily startT endT) * (15/100) /
                 avgDailyPriceOf (filterDailyRange daily startT endT) * 100⟩
        h2 := ⟨avgSpreadOf (filterDailyRange daily startT endT) * (25/100),
               avgSpreadOf (filterDailyRange daily startT endT) * 250,
               avgSpreadOf (filterDailyRange daily startT endT) * (25/100) /
                 avgDailyPriceOf (filterDailyRange daily startT endT) * 100⟩
        h4 := ⟨avgSpreadOf (filterDailyRange daily startT endT) * (40/100),
               avgSpreadOf (filterDailyRange daily startT endT) * 400,
               avgSpreadOf (filterDailyRange daily startT endT) * (40/100) /
                 avgDailyPriceOf (filterDailyRange daily startT endT) * 100⟩
        h8 := ⟨avgSpreadOf (filterDailyRange daily startT endT) * (60/100),
               avgSpreadOf (filterDailyRange daily startT endT) * 600,
               avgSpreadOf (filterDailyRange daily startT endT) * (60/100) /
                 avgDailyPriceOf (filterDailyRange daily startT endT) * 100⟩
        isEstimated := true
        dataPoints := (filterDailyRange daily startT endT).length
        avgPrice := avgDailyPriceOf (filterDailyRange daily startT endT) } := by
    simp only [dateRangePriceMetrics, if_pos hlen]
    rw [if_neg (by omega)]
  refine ⟨_, heq, rfl, rfl, rfl, rfl, hspread, ?_, ?_, ?_, by ring, by ring, by ring, by ring⟩
  · exact mul_le_mul_of_nonneg_left (by norm_num) hspread
  · exact mul_le_mul_of_nonneg_left (by norm_num) hspread
  · exact mul_le_mul_of_nonneg_left (by norm_num) hspread

/-- Witness for C10 at one daily record with spread 10 inside an
otherwise empty window. -/
theorem c10_estimated_fractions_witness :
    ∃ r : RangeMetrics,
      dateRangePriceMetrics [] [⟨0, 12, 4, 14⟩] [] 0 9 = some r
      ∧ r.h1.avgSavingsPerMWh = avgSpreadOf (filterDailyRange [⟨0, 12, 4, 14⟩] 0 9) * (15/100)
      ∧ r.h2.avgSavingsPerMWh = avgSpreadOf (filterDailyRange [⟨0, 12, 4, 14⟩] 0 9) * (25/100)
      ∧ r.h4.avgSavingsPerMWh = avgSpreadOf (filterDailyRange [⟨0, 12, 4, 14⟩] 0 9) * (40/100)
      ∧ r.h8.avgSavingsPerMWh = avgSpreadOf (filterDailyRange [⟨0, 12, 4, 14⟩] 0 9) * (60/100)
      ∧ 0 ≤ avgSpreadOf (filterDailyRange [⟨0, 12, 4, 14⟩] 0 9)
      ∧ r.h1.avgSavingsPerMWh ≤ r.h2.avgSavingsPerMWh
      ∧ r.h2.avgSavingsPerMWh ≤ r.h4.avgSavingsPerMWh
      ∧ r.h4.avgSavingsPerMWh ≤ r.h8.avgSavingsPerMWh
      ∧ r.h1.savingsPerGWh = 1000 * r.h1.avgSavingsPerMWh
      ∧ r.h2.savingsPerGWh = 1000 * r.h2.avgSavingsPerMWh
      ∧ r.h4.savingsPerGWh = 1000 * r.h4.avgSavingsPerMWh
      ∧ r.h8.savingsPerGWh = 1000 * r.h8.avgSavingsPerMWh :=
  c10_estimated_fractions [] [⟨0, 12, 4, 14⟩] [] 0 9
    (by norm_num [mergeHybrid, filterRange])
    (by norm_num [filterDailyRange])
    (by intro d hd; rcases List.mem_singleton.mp hd with rfl; norm_num)

/-- C9: over the most recent 7-day window of a sorted series, currentPrice
is the value at the latest timestamp of the window and avgPrice7d is the
mean over the window rounded to 2 decimals; an empty window reports both
as null, never zero. -/
theorem c9_summary_rollup (ps : List HourlyPrice) (hs : ps.Pairwise hpLe) :
    (ps = [] → currentPrice ps = none ∧ avgPrice7d ps = none)
    ∧ (ps ≠ [] →
        ∃ p : HourlyPrice, p ∈ recentWindow ps ∧ currentPrice ps = some p.price ∧
          (∀ q ∈ recentWindow ps, q.datetime ≤ p.datetime) ∧
          avgPrice7d ps = some (round2 (((recentWindow ps).map (fun x => x.price)).sum /
            ((recentWindow ps).length : ℚ)))) := by
  constructor
  · rintro rfl
    constructor <;> rfl
  · intro hne
    have hpos : 0 < (recentWindow ps).length := recentWindow_length_pos hne
    have hwne : recentWindow ps ≠ [] := by
      intro h0
      rw [h0] at hpos
      cases hpos
    refine ⟨(recentWindow ps).getLastD hpDefault, getLastD_mem _ _ hwne, ?_, ?_, ?_⟩
    · simp only [currentPrice, if_pos hpos]
    · intro q hq
      exact pairwise_hpLe_getLastD (recentWindow ps) (recentWindow_pairwise hs) hpDefault q hq
    · simp only [avgPrice7d, if_pos hpos]

/-- Witness for C9 at the one-point series [(5, 30)]. -/
theorem c9_summary_rollup_witness :
    ∃ p : HourlyPrice, p ∈ recentWindow [⟨5, 30⟩] ∧
      currentPrice [⟨5, 30⟩] = some p.price ∧
      (∀ q ∈ recentWindow [⟨5, 30⟩], q.datetime ≤ p.datetime) ∧
      avgPrice7d [⟨5, 30⟩] = some (round2 (((recentWindow [⟨5, 30⟩]).map
        (fun x => x.price)).sum / ((recentWindow [⟨5, 30⟩]).length : ℚ))) :=
  (c9_summary_rollup [⟨5, 30⟩] (List.pairwise_singleton _ _)).2 (by simp)
